import Mathlib

/-!
A shallow embedding of the OpenREALM `TileCache` component
(`src/modules/realm_ortho/src/tile_cache.cpp`), together with proofs of the
specified properties of its add/get protocol, its background flush/evict
cycle, its persistence protocol (load/write/flush) and its ROI predictor.

Modelling conventions:
- `std::map` becomes an association list with `alookup` (mirroring `find`)
  and `ainsert` (mirroring `operator[]` assignment).
- `cv::Mat` is modelled as an abstract content id together with its cv type
  code; `type & CV_MAT_DEPTH_MASK` becomes `Nat.land type 7`
  (CV_8U = 0, CV_16U = 2, CV_32F = 5, CV_64F = 6).
- The disk is an association list from filename to matrix content;
  `io::fileExists` + `io::loadImage` become a lookup, `io::saveImage` an
  insert, `io::createDir` appends to a directory list.
- C++ exceptions become an `Option CacheErr` component of each result;
  mutations performed before a throw are retained, as in C++.
- Dereferencing a `std::map` iterator that equals `end()` is undefined
  behaviour in C++; the model surfaces it as a distinguished
  `endIterDeref...` error at the exact source location where it occurs.
- Mutexes are not given an interleaving semantics (each modelled operation
  is one atomic call, matching the locking discipline of the source); the
  tile-level lock that `get` transfers to its caller is modelled as the
  `locked` flag on `Tile`.
-/

/-- Lookup in an association list, mirroring `std::map::find`. -/
def alookup {κ α : Type} [DecidableEq κ] : List (κ × α) → κ → Option α
  | [], _ => none
  | (k, v) :: rest, key => if key = k then some v else alookup rest key

/-- Insert-or-update in an association list, mirroring assignment through
`std::map::operator[]` or through a valid iterator. -/
def ainsert {κ α : Type} [DecidableEq κ] : List (κ × α) → κ → α → List (κ × α)
  | [], key, v => [(key, v)]
  | (k, v') :: rest, key, v =>
    if key = k then (key, v) :: rest else (k, v') :: ainsert rest key v

/-- A `cv::Mat`: abstract raster content plus its cv type code. -/
structure Mat where
  content : Nat
  mtype : Nat
deriving DecidableEq

/-- One layer of a `CvGridMap`: data matrix and interpolation flag. -/
structure RasterLayer where
  data : Mat
  interpolation : Nat
deriving DecidableEq

/-- The raster container of a tile (`CvGridMap`): named layers. -/
abbrev Raster := List (String × RasterLayer)

/-- `LayerMetaData` from `tile_cache.h`: name, cv type code, interpolation. -/
structure LayerMetaData where
  name : String
  mtype : Nat
  interpolation_flag : Nat
deriving DecidableEq

/-- `cv::Rect2i`: an integer rectangle in tile-index space. -/
structure Rect2i where
  x : Int
  y : Int
  width : Int
  height : Int
deriving DecidableEq

/-- A `Tile`: pyramid coordinates, raster container, and its lock state. -/
structure Tile where
  zoom_level : Int
  x : Int
  y : Int
  data : Raster
  locked : Bool
deriving DecidableEq

/-- `CacheElement` from `tile_cache.h`. -/
structure CacheElement where
  timestamp : Int
  layer_meta : List LayerMetaData
  tile : Tile
  was_written : Bool
deriving DecidableEq

abbrev CacheColumn := List (Int × CacheElement)
abbrev CacheElementGrid := List (Int × CacheColumn)
abbrev Cache := List (Int × CacheElementGrid)
abbrev Disk := List (String × Mat)

/-- Errors of the modelled operations. The `endIterDeref...` constructors
mark the points where the C++ source dereferences a map iterator equal to
`end()` (undefined behaviour). -/
inductive CacheErr where
  | unknownTypeWrite
  | unknownTypeRead
  | missingTileFile (filename : String)
  | layerNotFound (name : String)
  | endIterDerefAddNewZoom
  | endIterDerefPrevRequest
  | endIterDerefPrediction
  | predictionMissing (zoom : Int)
  | emptyTileVector
deriving DecidableEq

/-- Observable events of one worker flush/evict cycle, in program order. -/
inductive CacheEvent where
  | writeEv (zoom x y : Int)
  | evictEv (zoom x y : Int)
deriving DecidableEq

/-- The state of a `TileCache` object together with the file system it
talks to. -/
structure TileCacheState where
  dir_toplevel : String
  has_init_directories : Bool
  cache : Cache
  roi_prev_request : List (Int × Rect2i)
  roi_prediction : List (Int × Rect2i)
  do_update : Bool
  disk : Disk
  dirs : List String
deriving DecidableEq

/-- `CvGridMap::get(name)`. -/
def rasterGet (r : Raster) (name : String) : Option RasterLayer :=
  alookup r name

/-- `CvGridMap::add(name, data, interpolation)`. -/
def rasterAdd (r : Raster) (name : String) (m : Mat) (interp : Nat) : Raster :=
  ainsert r name ⟨m, interp⟩

/-- `CvGridMap::remove(name)`. -/
def rasterRemove : Raster → String → Raster
  | [], _ => []
  | (n, l) :: rest, name =>
    if n = name then rasterRemove rest name else (n, l) :: rasterRemove rest name

/-- The removal loop of `TileCache::flush`: remove every layer listed in the
element's metadata from the raster container. -/
def removeLayers : List LayerMetaData → Raster → Raster
  | [], r => r
  | meta :: rest, r => removeLayers rest (rasterRemove r meta.name)

/-- The file-extension switch shared by `TileCache::load` and
`TileCache::write`: CV_8U ↦ ".png", CV_16U/CV_32F/CV_64F ↦ ".bin",
anything else is an unknown pixel type. -/
def tileFileExt : Nat → Option String
  | 0 => some ".png"
  | 2 => some ".bin"
  | 5 => some ".bin"
  | 6 => some ".bin"
  | _ => none

/-- The filename stem `<toplevel>/<layer>/<zoom>/<x>/<y>` built by
`TileCache::load` and `TileCache::write`. -/
def tileBasename (toplevel layer_name : String) (zoom x y : Int) : String :=
  toplevel ++ "/" ++ layer_name ++ "/" ++ toString zoom ++ "/" ++ toString x
    ++ "/" ++ toString y

/-- `TileCache::createDirectories`. -/
def createDirectories (toplevel : String) (layer_names : List String)
    (tile_tree : String) (dirs : List String) : List String :=
  dirs ++ layer_names.map (fun layer_name => toplevel ++ layer_name ++ tile_tree)

/-- `TileCache::isCached`: true iff the raster container is non-empty. -/
def isCached (e : CacheElement) : Bool :=
  !(e.tile.data.isEmpty)

/-- The per-layer loop of `TileCache::load` (lines 279-320): choose the
extension from the metadata type, then load the file if it exists and add
it to the raster; a missing file or an unknown type throws, keeping the
layers already added. -/
def loadLayers (toplevel : String) (disk : Disk) (zoom x y : Int) :
    List LayerMetaData → Raster → Raster × Option CacheErr
  | [], raster => (raster, none)
  | meta :: rest, raster =>
    let filename := tileBasename toplevel meta.name zoom x y
    match tileFileExt (Nat.land meta.mtype 7) with
    | none => (raster, some CacheErr.unknownTypeRead)
    | some ext =>
      match alookup disk (filename ++ ext) with
      | some data =>
        loadLayers toplevel disk zoom x y rest
          (rasterAdd raster meta.name data meta.interpolation_flag)
      | none => (raster, some (CacheErr.missingTileFile (filename ++ ext)))

/-- `TileCache::load`: reload every metadata layer of the element from disk
into its tile's raster container. -/
def loadElem (toplevel : String) (disk : Disk) (e : CacheElement) :
    CacheElement × Option CacheErr :=
  match loadLayers toplevel disk e.tile.zoom_level e.tile.x e.tile.y
      e.layer_meta e.tile.data with
  | (r, err) => ({ e with tile := { e.tile with data := r } }, err)

/-- The per-layer loop of `TileCache::write` (lines 325-358): fetch the
layer's matrix, choose the extension from the matrix type, save it, and set
`was_written = true` after each saved layer (faithful to the source, which
flips the flag inside the loop). -/
def writeLayers (toplevel : String) (zoom x y : Int) (raster : Raster) :
    List LayerMetaData → Bool → Disk → Bool × Disk × Option CacheErr
  | [], w, disk => (w, disk, none)
  | meta :: rest, w, disk =>
    match rasterGet raster meta.name with
    | none => (w, disk, some (CacheErr.layerNotFound meta.name))
    | some layer =>
      let filename := tileBasename toplevel meta.name zoom x y
      match tileFileExt (Nat.land layer.data.mtype 7) with
      | none => (w, disk, some CacheErr.unknownTypeWrite)
      | some ext =>
        writeLayers toplevel zoom x y raster rest true
          (ainsert disk (filename ++ ext) layer.data)

/-- `TileCache::write` on one element. -/
def writeElem (toplevel : String) (e : CacheElement) (disk : Disk) :
    CacheElement × Disk × Option CacheErr :=
  match writeLayers toplevel e.tile.zoom_level e.tile.x e.tile.y e.tile.data
      e.layer_meta e.was_written disk with
  | (w, disk2, err) => ({ e with was_written := w }, disk2, err)

/-- `TileCache::flush` on one element: write it if not yet written, then
remove every metadata layer from the raster container. A throw inside the
write aborts the flush before any layer is removed. -/
def flushElem (toplevel : String) (e : CacheElement) (disk : Disk) :
    CacheElement × Disk × Option CacheErr :=
  match (if !e.was_written then writeElem toplevel e disk else (e, disk, none)) with
  | (e1, d1, some err) => (e1, d1, some err)
  | (e1, d1, none) =>
    ({ e1 with tile := { e1.tile with data := removeLayers e1.layer_meta e1.tile.data } },
     d1, none)

/-- The eviction test of `TileCache::process` (lines 88-89): the element is
flushed when its coordinates lie beyond these bounds of the predicted ROI. -/
def outsideRoi (roi : Rect2i) (tx ty : Int) : Bool :=
  tx < roi.x || tx > roi.x + roi.width || ty < roi.y || ty > roi.y + roi.height

/-- Modelled from the spec: rectangle membership of a tile index in an ROI
rectangle, in the half-open convention of `cv::Rect2i::contains`
(`x ≤ px < x + width`, `y ≤ py < y + height`). This is the spec-side
membership notion against which the code's `outsideRoi` test is compared. -/
def rectContains (roi : Rect2i) (px py : Int) : Bool :=
  roi.x ≤ px && px < roi.x + roi.width && roi.y ≤ py && py < roi.y + roi.height

/-- The write phase of the worker on one element (lines 78-82): if the
element is not yet written, count it and write it. -/
def writePhase (toplevel : String) (e : CacheElement) (disk : Disk) :
    CacheElement × Disk × List CacheEvent × Option CacheErr :=
  if !e.was_written then
    match writeElem toplevel e disk with
    | (e1, d1, err) =>
      (e1, d1, [CacheEvent.writeEv e.tile.zoom_level e.tile.x e.tile.y], err)
  else (e, disk, [], none)

/-- The evict phase of the worker on one element (lines 84-93): if the
element is cached and its coordinates fail the ROI test, flush it. -/
def evictPhase (toplevel : String) (roi : Rect2i) (e1 : CacheElement) (d1 : Disk)
    (evs : List CacheEvent) :
    CacheElement × Disk × List CacheEvent × Option CacheErr :=
  if isCached e1 then
    if outsideRoi roi e1.tile.x e1.tile.y then
      match flushElem toplevel e1 d1 with
      | (e2, d2, err2) =>
        (e2, d2, evs ++ [CacheEvent.evictEv e1.tile.zoom_level e1.tile.x e1.tile.y], err2)
    else (e1, d1, evs, none)
  else (e1, d1, evs, none)

/-- One element of the worker's flush/evict cycle (`TileCache::process`,
lines 75-94): write if unwritten, then evict if cached and outside the
predicted ROI. An exception in the write phase propagates immediately. -/
def processElem (toplevel : String) (roi : Rect2i) (e : CacheElement) (disk : Disk) :
    CacheElement × Disk × List CacheEvent × Option CacheErr :=
  match writePhase toplevel e disk with
  | (e1, d1, evs, some err) => (e1, d1, evs, some err)
  | (e1, d1, evs, none) => evictPhase toplevel roi e1 d1 evs

/-- The worker's loop over one cache column. An exception thrown while
processing one element propagates, leaving the remaining elements of the
column untouched (there is no try/catch in `TileCache::process`). -/
def processColumn (toplevel : String) (roi : Rect2i) :
    CacheColumn → Disk → CacheColumn × Disk × List CacheEvent × Option CacheErr
  | [], disk => ([], disk, [], none)
  | (y, e) :: rest, disk =>
    match processElem toplevel roi e disk with
    | (e1, d1, evs, some err) => ((y, e1) :: rest, d1, evs, some err)
    | (e1, d1, evs, none) =>
      match processColumn toplevel roi rest d1 with
      | (rest2, d2, evs2, err2) => ((y, e1) :: rest2, d2, evs ++ evs2, err2)

/-- The worker's loop over one zoom level's grid of columns. -/
def processGrid (toplevel : String) (roi : Rect2i) :
    CacheElementGrid → Disk → CacheElementGrid × Disk × List CacheEvent × Option CacheErr
  | [], disk => ([], disk, [], none)
  | (x, col) :: rest, disk =>
    match processColumn toplevel roi col disk with
    | (col1, d1, evs1, some err) => ((x, col1) :: rest, d1, evs1, some err)
    | (col1, d1, evs1, none) =>
      match processGrid toplevel roi rest d1 with
      | (rest2, d2, evs2, err2) => ((x, col1) :: rest2, d2, evs1 ++ evs2, err2)

/-- The worker's loop over all zoom levels (lines 68-97). The predicted ROI
for the zoom level is fetched with `std::map::at`, which throws when the
zoom level has no prediction entry. -/
def processCache (toplevel : String) (roi_prediction : List (Int × Rect2i)) :
    Cache → Disk → Cache × Disk × List CacheEvent × Option CacheErr
  | [], disk => ([], disk, [], none)
  | (zoom, grid) :: rest, disk =>
    match alookup roi_prediction zoom with
    | none => ((zoom, grid) :: rest, disk, [], some (CacheErr.predictionMissing zoom))
    | some roi =>
      match processGrid toplevel roi grid disk with
      | (grid1, d1, evs1, some err) => ((zoom, grid1) :: rest, d1, evs1, some err)
      | (grid1, d1, evs1, none) =>
        match processCache toplevel roi_prediction rest d1 with
        | (rest2, d2, evs2, err2) => ((zoom, grid1) :: rest2, d2, evs1 ++ evs2, err2)

/-- `TileCache::process`: atomically read-and-clear the dirty flag, then run
one flush/evict cycle if it was set. -/
def tileCacheProcess (s : TileCacheState) : TileCacheState × Bool × Option CacheErr :=
  let do_update := s.do_update
  let s1 := { s with do_update := false }
  if do_update then
    match processCache s1.dir_toplevel s1.roi_prediction s1.cache s1.disk with
    | (cache2, disk2, _, err) => ({ s1 with cache := cache2, disk := disk2 }, true, err)
  else (s1, false, none)

/-- `TileCache::updatePrediction` (lines 388-412). When no previous request
exists for the zoom level, the source sets the prediction to the current ROI
and then assigns through `it_roi_prev_request`, which equals `end()` at that
point (line 411) — undefined behaviour, surfaced as `endIterDerefPrevRequest`;
the previous-request entry is not created. When a previous request exists but
no prediction entry does, lines 405-408 assign through the `end()` iterator of
the prediction map (`endIterDerefPrediction`). -/
def updatePredictionModel (roi_prev_request roi_prediction : List (Int × Rect2i))
    (zoom_level : Int) (roi_current : Rect2i) :
    (List (Int × Rect2i) × List (Int × Rect2i)) × Option CacheErr :=
  match alookup roi_prev_request zoom_level with
  | none =>
    ((roi_prev_request, ainsert roi_prediction zoom_level roi_current),
     some CacheErr.endIterDerefPrevRequest)
  | some prev =>
    match alookup roi_prediction zoom_level with
    | none => ((roi_prev_request, roi_prediction), some CacheErr.endIterDerefPrediction)
    | some _ =>
      let predicted : Rect2i :=
        { x := roi_current.x + (roi_current.x - prev.x)
          y := roi_current.y + (roi_current.y - prev.y)
          width := roi_current.width + (roi_current.width - prev.width)
          height := roi_current.height + (roi_current.height - prev.height) }
      ((ainsert roi_prev_request zoom_level roi_current,
        ainsert roi_prediction zoom_level predicted), none)

/-- The per-tile loop of `TileCache::add` for an existing zoom level
(lines 143-171): each tile is locked, its slot found or created (creating
the column directories when the column is new), and the slot's element is
unconditionally replaced; the tile is unlocked after being stored. -/
def addExisting (toplevel : String) (layer_names : List String)
    (layer_meta : List LayerMetaData) (zoom_level : Int) (timestamp : Int) :
    List Tile → CacheElementGrid → List String → CacheElementGrid × List String
  | [], grid, dirs => (grid, dirs)
  | t :: rest, grid, dirs =>
    let newElem : CacheElement :=
      { timestamp := timestamp, layer_meta := layer_meta,
        tile := { t with locked := false }, was_written := false }
    match alookup grid t.x with
    | none =>
      let dirs2 := createDirectories (toplevel ++ "/") layer_names
        ("/" ++ toString zoom_level ++ "/" ++ toString t.x) dirs
      addExisting toplevel layer_names layer_meta zoom_level timestamp rest
        (ainsert grid t.x [(t.y, newElem)]) dirs2
    | some col =>
      -- lines 157-168: whether the row already exists or not, the slot is
      -- (re)assigned with the fresh element; replacing an existing element
      -- additionally locks the doomed element's own mutex first, which has
      -- no data effect.
      addExisting toplevel layer_names layer_meta zoom_level timestamp rest
        (ainsert grid t.x (ainsert col t.y newElem)) dirs

/-- The tail of `TileCache::add` on the existing-zoom-level path: run the
per-tile insertion loop, store the updated grid, update the ROI prediction
(whose fault, if any, aborts the call before the dirty flag is set), and
finally set the dirty flag. -/
def addTilesExisting (s1 : TileCacheState) (zoom_level : Int) (layer_names : List String)
    (layer_meta : List LayerMetaData) (tiles : List Tile) (grid : CacheElementGrid)
    (roi_idx : Rect2i) (timestamp : Int) : TileCacheState × Option CacheErr :=
  let grid2 := (addExisting s1.dir_toplevel layer_names layer_meta zoom_level timestamp
    tiles grid s1.dirs).1
  let dirs2 := (addExisting s1.dir_toplevel layer_names layer_meta zoom_level timestamp
    tiles grid s1.dirs).2
  match updatePredictionModel s1.roi_prev_request s1.roi_prediction zoom_level roi_idx with
  | ((prevR, predR), some err) =>
    ({ s1 with cache := ainsert s1.cache zoom_level grid2, dirs := dirs2,
               roi_prev_request := prevR, roi_prediction := predR }, some err)
  | ((prevR, predR), none) =>
    ({ s1 with cache := ainsert s1.cache zoom_level grid2, dirs := dirs2,
               roi_prev_request := prevR, roi_prediction := predR,
               do_update := true }, none)

/-- `TileCache::add` (lines 113-200). The layer schema is derived from the
first tile (indexing an empty vector is undefined behaviour). When the zoom
level is not yet cached, the source creates the zoom directories and then,
for the first tile of the loop at line 184, calls `find` through `it_zoom`,
which equals `_cache.end()` — undefined behaviour, surfaced as
`endIterDerefAddNewZoom` before any tile is inserted. On the existing-zoom
path, the tiles are inserted, the ROI prediction is updated, and the dirty
flag is set (unless `updatePrediction` faults first). -/
def addTiles (s : TileCacheState) (zoom_level : Int) (tiles : List Tile)
    (roi_idx : Rect2i) (timestamp : Int) : TileCacheState × Option CacheErr :=
  match tiles with
  | [] => (s, some CacheErr.emptyTileVector)
  | t0 :: _ =>
    let layer_names : List String := t0.data.map (fun p => p.1)
    let layer_meta : List LayerMetaData :=
      t0.data.map (fun p =>
        { name := p.1, mtype := p.2.data.mtype, interpolation_flag := p.2.interpolation })
    -- lines 128-132: on every path beyond this point the toplevel layer
    -- directories are initialised; they are created only when they were not
    -- yet, and the flag ends up true either way.
    let dirs0 :=
      if !s.has_init_directories then
        createDirectories (s.dir_toplevel ++ "/") layer_names "" s.dirs
      else s.dirs
    let s1 := { s with dirs := dirs0, has_init_directories := true }
    match alookup s1.cache zoom_level with
    | some grid =>
      addTilesExisting s1 zoom_level layer_names layer_meta tiles grid roi_idx timestamp
    | none =>
      let dirs2 := createDirectories (s1.dir_toplevel ++ "/") layer_names
        ("/" ++ toString zoom_level) s1.dirs
      ({ s1 with dirs := dirs2 }, some CacheErr.endIterDerefAddNewZoom)

/-- Lookup of a cache slot by (zoom, x, y): the three sequential `find`
calls of `TileCache::get` (lines 204-220). -/
def cacheFind (c : Cache) (zoom tx ty : Int) : Option CacheElement :=
  match alookup c zoom with
  | none => none
  | some grid =>
    match alookup grid tx with
    | none => none
    | some col => alookup col ty

/-- In-place replacement of the element at an existing (zoom, x, y) slot —
the effect of assigning through the iterators that `TileCache::get` obtained
from its three `find` calls. When the slot does not exist the cache is
returned unchanged (get never assigns in that case). -/
def cacheReplace (c : Cache) (zoom_level tx ty : Int) (enew : CacheElement) : Cache :=
  match alookup c zoom_level with
  | none => c
  | some grid =>
    match alookup grid tx with
    | none => c
    | some col => ainsert c zoom_level (ainsert grid tx (ainsert col ty enew))

/-- `TileCache::get` (lines 202-233): a missing zoom level, column or row
yields "not found" (`none`) with no error; otherwise the tile is locked and,
if its raster container is empty, synchronously loaded from disk. The tile is
returned still locked; a load error propagates to the caller, retaining the
layers loaded before the throw. -/
def tileCacheGet (s : TileCacheState) (tx ty zoom_level : Int) :
    Option Tile × TileCacheState × Option CacheErr :=
  match cacheFind s.cache zoom_level tx ty with
  | none => (none, s, none)
  | some e =>
    let e1 := { e with tile := { e.tile with locked := true } }
    if isCached e1 then
      (some e1.tile, { s with cache := cacheReplace s.cache zoom_level tx ty e1 }, none)
    else
      match loadElem s.dir_toplevel s.disk e1 with
      | (e2, none) =>
        (some e2.tile, { s with cache := cacheReplace s.cache zoom_level tx ty e2 }, none)
      | (e2, some err) =>
        (none, { s with cache := cacheReplace s.cache zoom_level tx ty e2 }, some err)

/-- Whether one layer of an element can be loaded from disk: its pixel type
maps to a known extension and the backing file exists. -/
def layerLoadable (toplevel : String) (disk : Disk) (zoom x y : Int)
    (meta : LayerMetaData) : Bool :=
  match tileFileExt (Nat.land meta.mtype 7) with
  | none => false
  | some ext => (alookup disk (tileBasename toplevel meta.name zoom x y ++ ext)).isSome

/-! ### Lemmas about the association-list maps -/

theorem alookup_ainsert_self {κ α : Type} [DecidableEq κ] (m : List (κ × α)) (k : κ) (v : α) :
    alookup (ainsert m k v) k = some v := by
  induction m with
  | nil => simp [ainsert, alookup]
  | cons p rest ih =>
    obtain ⟨a, b⟩ := p
    by_cases h : k = a
    · simp [ainsert, alookup, h]
    · simp [ainsert, alookup, h, ih]

theorem alookup_ainsert_ne {κ α : Type} [DecidableEq κ] (m : List (κ × α)) (k k' : κ) (v : α)
    (h : k' ≠ k) : alookup (ainsert m k v) k' = alookup m k' := by
  induction m with
  | nil => simp [ainsert, alookup, h]
  | cons p rest ih =>
    obtain ⟨a, b⟩ := p
    by_cases h2 : k = a
    · subst h2
      simp [ainsert, alookup, h]
    · by_cases h3 : k' = a <;> simp [ainsert, alookup, h2, h3, ih]

theorem ainsert_ne_nil {κ α : Type} [DecidableEq κ] (m : List (κ × α)) (k : κ) (v : α) :
    ainsert m k v ≠ [] := by
  cases m with
  | nil => simp [ainsert]
  | cons p rest =>
    obtain ⟨a, b⟩ := p
    by_cases h : k = a <;> simp [ainsert, h]

/-! ### Lemmas about the write loop -/

theorem writeLayers_flag_true (toplevel : String) (zoom x y : Int) (raster : Raster)
    (metas : List LayerMetaData) (disk : Disk) :
    (writeLayers toplevel zoom x y raster metas true disk).1 = true := by
  induction metas generalizing disk with
  | nil => rfl
  | cons m rest ih =>
    cases h : rasterGet raster m.name with
    | none => simp [writeLayers, h]
    | some layer =>
      cases h2 : tileFileExt (Nat.land layer.data.mtype 7) with
      | none => simp [writeLayers, h, h2]
      | some ext =>
        simp only [writeLayers, h, h2]
        exact ih _

theorem writeLayers_cons_flag (toplevel : String) (zoom x y : Int) (raster : Raster)
    (m : LayerMetaData) (rest : List LayerMetaData) (w : Bool) (disk : Disk)
    (hok : (writeLayers toplevel zoom x y raster (m :: rest) w disk).2.2 = none) :
    (writeLayers toplevel zoom x y raster (m :: rest) w disk).1 = true := by
  cases h : rasterGet raster m.name with
  | none => simp [writeLayers, h] at hok
  | some layer =>
    cases h2 : tileFileExt (Nat.land layer.data.mtype 7) with
    | none => simp [writeLayers, h, h2] at hok
    | some ext =>
      simp only [writeLayers, h, h2]
      exact writeLayers_flag_true toplevel zoom x y raster rest _

theorem writeElem_tile (toplevel : String) (e : CacheElement) (disk : Disk) :
    (writeElem toplevel e disk).1.tile = e.tile := rfl

theorem writeElem_meta (toplevel : String) (e : CacheElement) (disk : Disk) :
    (writeElem toplevel e disk).1.layer_meta = e.layer_meta := rfl

theorem writeElem_timestamp (toplevel : String) (e : CacheElement) (disk : Disk) :
    (writeElem toplevel e disk).1.timestamp = e.timestamp := rfl

theorem writeElem_flag (toplevel : String) (e : CacheElement) (disk : Disk) :
    (writeElem toplevel e disk).1.was_written =
      (writeLayers toplevel e.tile.zoom_level e.tile.x e.tile.y e.tile.data
        e.layer_meta e.was_written disk).1 := rfl

theorem writeElem_err (toplevel : String) (e : CacheElement) (disk : Disk) :
    (writeElem toplevel e disk).2.2 =
      (writeLayers toplevel e.tile.zoom_level e.tile.x e.tile.y e.tile.data
        e.layer_meta e.was_written disk).2.2 := rfl

/-! ### Lemmas about the load loop -/

theorem loadLayers_none_iff (toplevel : String) (disk : Disk) (zoom x y : Int)
    (metas : List LayerMetaData) (raster : Raster) :
    (loadLayers toplevel disk zoom x y metas raster).2 = none ↔
      ∀ m ∈ metas, layerLoadable toplevel disk zoom x y m = true := by
  induction metas generalizing raster with
  | nil => simp [loadLayers]
  | cons m rest ih =>
    cases h : tileFileExt (Nat.land m.mtype 7) with
    | none => simp [loadLayers, h, layerLoadable]
    | some ext =>
      cases h2 : alookup disk (tileBasename toplevel m.name zoom x y ++ ext) with
      | none => simp [loadLayers, h, h2, layerLoadable]
      | some data => simp [loadLayers, h, h2, layerLoadable, ih]

theorem loadLayers_ne_nil (toplevel : String) (disk : Disk) (zoom x y : Int)
    (metas : List LayerMetaData) (raster : Raster)
    (hok : (loadLayers toplevel disk zoom x y metas raster).2 = none)
    (hne : raster ≠ [] ∨ metas ≠ []) :
    (loadLayers toplevel disk zoom x y metas raster).1 ≠ [] := by
  induction metas generalizing raster with
  | nil =>
    cases hne with
    | inl h => simpa [loadLayers] using h
    | inr h => exact absurd rfl h
  | cons m rest ih =>
    cases h : tileFileExt (Nat.land m.mtype 7) with
    | none => simp [loadLayers, h] at hok
    | some ext =>
      cases h2 : alookup disk (tileBasename toplevel m.name zoom x y ++ ext) with
      | none => simp [loadLayers, h, h2] at hok
      | some data =>
        simp only [loadLayers, h, h2] at hok ⊢
        exact ih _ hok (Or.inl (ainsert_ne_nil _ _ _))

theorem loadElem_was_written (toplevel : String) (disk : Disk) (e : CacheElement) :
    (loadElem toplevel disk e).1.was_written = e.was_written := rfl

theorem loadElem_meta (toplevel : String) (disk : Disk) (e : CacheElement) :
    (loadElem toplevel disk e).1.layer_meta = e.layer_meta := rfl

theorem loadElem_timestamp (toplevel : String) (disk : Disk) (e : CacheElement) :
    (loadElem toplevel disk e).1.timestamp = e.timestamp := rfl

theorem loadElem_locked (toplevel : String) (disk : Disk) (e : CacheElement) :
    (loadElem toplevel disk e).1.tile.locked = e.tile.locked := rfl

theorem loadElem_coords (toplevel : String) (disk : Disk) (e : CacheElement) :
    (loadElem toplevel disk e).1.tile.zoom_level = e.tile.zoom_level ∧
    (loadElem toplevel disk e).1.tile.x = e.tile.x ∧
    (loadElem toplevel disk e).1.tile.y = e.tile.y := ⟨rfl, rfl, rfl⟩

theorem loadElem_data (toplevel : String) (disk : Disk) (e : CacheElement) :
    (loadElem toplevel disk e).1.tile.data =
      (loadLayers toplevel disk e.tile.zoom_level e.tile.x e.tile.y
        e.layer_meta e.tile.data).1 := rfl

theorem loadElem_err (toplevel : String) (disk : Disk) (e : CacheElement) :
    (loadElem toplevel disk e).2 =
      (loadLayers toplevel disk e.tile.zoom_level e.tile.x e.tile.y
        e.layer_meta e.tile.data).2 := rfl

/-! ### Lemmas about flush and the worker phases -/

theorem flushElem_of_written (toplevel : String) (e : CacheElement) (disk : Disk)
    (hw : e.was_written = true) :
    flushElem toplevel e disk =
      ({ e with tile := { e.tile with data := removeLayers e.layer_meta e.tile.data } },
       disk, none) := by
  simp [flushElem, hw]

theorem flushElem_meta (toplevel : String) (e : CacheElement) (disk : Disk) :
    (flushElem toplevel e disk).1.layer_meta = e.layer_meta := by
  unfold flushElem
  by_cases hw : e.was_written
  · simp [hw]
  · simp only [Bool.not_eq_true] at hw
    simp only [hw, Bool.not_false, if_pos]
    cases herr : (writeElem toplevel e disk).2.2 with
    | none =>
      cases hwe : writeElem toplevel e disk with
      | mk e1 rest =>
        obtain ⟨d1, err⟩ := rest
        have he1 : e1.layer_meta = e.layer_meta := by
          have := writeElem_meta toplevel e disk
          rw [hwe] at this
          exact this
        rw [hwe] at herr
        simp only at herr
        subst herr
        simp [he1]
    | some er =>
      cases hwe : writeElem toplevel e disk with
      | mk e1 rest =>
        obtain ⟨d1, err⟩ := rest
        have he1 : e1.layer_meta = e.layer_meta := by
          have := writeElem_meta toplevel e disk
          rw [hwe] at this
          exact this
        rw [hwe] at herr
        simp only at herr
        subst herr
        simp [he1]

theorem flushElem_timestamp (toplevel : String) (e : CacheElement) (disk : Disk) :
    (flushElem toplevel e disk).1.timestamp = e.timestamp := by
  unfold flushElem
  by_cases hw : e.was_written
  · simp [hw]
  · simp only [Bool.not_eq_true] at hw
    simp only [hw, Bool.not_false, if_pos]
    cases hwe : writeElem toplevel e disk with
    | mk e1 rest =>
      obtain ⟨d1, err⟩ := rest
      have he1 : e1.timestamp = e.timestamp := by
        have := writeElem_timestamp toplevel e disk
        rw [hwe] at this
        exact this
      cases err <;> simp [he1]

theorem flushElem_data_of_ok (toplevel : String) (e : CacheElement) (disk : Disk)
    (hok : (flushElem toplevel e disk).2.2 = none) :
    (flushElem toplevel e disk).1.tile.data = removeLayers e.layer_meta e.tile.data := by
  unfold flushElem
  by_cases hw : e.was_written
  · simp [hw]
  · simp only [Bool.not_eq_true] at hw
    unfold flushElem at hok
    simp only [hw, Bool.not_false, if_pos] at hok ⊢
    cases hwe : writeElem toplevel e disk with
    | mk e1 rest =>
      obtain ⟨d1, err⟩ := rest
      rw [hwe] at hok
      cases err with
      | some er => simp at hok
      | none =>
        have ht : e1.tile = e.tile := by
          have := writeElem_tile toplevel e disk
          rw [hwe] at this
          exact this
        have hm : e1.layer_meta = e.layer_meta := by
          have := writeElem_meta toplevel e disk
          rw [hwe] at this
          exact this
        simp [ht, hm]

theorem flushElem_flag_of_changed (toplevel : String) (e : CacheElement) (disk : Disk)
    (hok : (flushElem toplevel e disk).2.2 = none)
    (hch : (flushElem toplevel e disk).1.tile.data ≠ e.tile.data) :
    (flushElem toplevel e disk).1.was_written = true := by
  by_cases hw : e.was_written
  · rw [flushElem_of_written toplevel e disk hw]
    exact hw
  · simp only [Bool.not_eq_true] at hw
    unfold flushElem at hok hch ⊢
    simp only [hw, Bool.not_false, if_pos] at hok hch ⊢
    cases hwe : writeElem toplevel e disk with
    | mk e1 rest =>
      obtain ⟨d1, err⟩ := rest
      rw [hwe] at hok hch
      cases err with
      | some er => simp at hok
      | none =>
        have ht : e1.tile = e.tile := by
          have := writeElem_tile toplevel e disk
          rw [hwe] at this
          exact this
        have hm : e1.layer_meta = e.layer_meta := by
          have := writeElem_meta toplevel e disk
          rw [hwe] at this
          exact this
        simp only [ht, hm] at hch ⊢
        cases hmeta : e.layer_meta with
        | nil =>
          rw [hmeta] at hch
          simp [removeLayers] at hch
        | cons m mrest =>
          have hflag : e1.was_written = true := by
            have h1 := writeElem_flag toplevel e disk
            have h2 := writeElem_err toplevel e disk
            rw [hwe] at h1 h2
            simp only at h1 h2
            rw [h1, hmeta]
            exact writeLayers_cons_flag toplevel e.tile.zoom_level e.tile.x e.tile.y
              e.tile.data m mrest e.was_written disk (by rw [← hmeta, ← h2])
          simp [hflag]

theorem writePhase_tile (toplevel : String) (e : CacheElement) (disk : Disk) :
    (writePhase toplevel e disk).1.tile = e.tile := by
  unfold writePhase
  by_cases hw : e.was_written
  · simp [hw]
  · simp only [Bool.not_eq_true] at hw
    simp only [hw, Bool.not_false, if_pos]
    cases hwe : writeElem toplevel e disk with
    | mk e1 rest =>
      obtain ⟨d1, err⟩ := rest
      have := writeElem_tile toplevel e disk
      rw [hwe] at this
      simpa using this

theorem writePhase_meta (toplevel : String) (e : CacheElement) (disk : Disk) :
    (writePhase toplevel e disk).1.layer_meta = e.layer_meta := by
  unfold writePhase
  by_cases hw : e.was_written
  · simp [hw]
  · simp only [Bool.not_eq_true] at hw
    simp only [hw, Bool.not_false, if_pos]
    cases hwe : writeElem toplevel e disk with
    | mk e1 rest =>
      obtain ⟨d1, err⟩ := rest
      have := writeElem_meta toplevel e disk
      rw [hwe] at this
      simpa using this

theorem writePhase_timestamp (toplevel : String) (e : CacheElement) (disk : Disk) :
    (writePhase toplevel e disk).1.timestamp = e.timestamp := by
  unfold writePhase
  by_cases hw : e.was_written
  · simp [hw]
  · simp only [Bool.not_eq_true] at hw
    simp only [hw, Bool.not_false, if_pos]
    cases hwe : writeElem toplevel e disk with
    | mk e1 rest =>
      obtain ⟨d1, err⟩ := rest
      have := writeElem_timestamp toplevel e disk
      rw [hwe] at this
      simpa using this

theorem writePhase_of_written (toplevel : String) (e : CacheElement) (disk : Disk)
    (hw : e.was_written = true) : writePhase toplevel e disk = (e, disk, [], none) := by
  simp [writePhase, hw]

theorem writePhase_evs (toplevel : String) (e : CacheElement) (disk : Disk) :
    ∀ v ∈ (writePhase toplevel e disk).2.2.1, ∃ z x y, v = CacheEvent.writeEv z x y := by
  unfold writePhase
  by_cases hw : e.was_written
  · simp [hw]
  · simp only [Bool.not_eq_true] at hw
    simp only [hw, Bool.not_false, if_pos]
    cases hwe : writeElem toplevel e disk with
    | mk e1 rest =>
      obtain ⟨d1, err⟩ := rest
      intro v hv
      simp only [List.mem_singleton] at hv
      exact ⟨e.tile.zoom_level, e.tile.x, e.tile.y, hv⟩

theorem evictPhase_spec (toplevel : String) (roi : Rect2i) (e1 : CacheElement) (d1 : Disk)
    (evs : List CacheEvent)
    (hok : (evictPhase toplevel roi e1 d1 evs).2.2.2 = none)
    (hch : (evictPhase toplevel roi e1 d1 evs).1.tile.data ≠ e1.tile.data) :
    (evictPhase toplevel roi e1 d1 evs).1.was_written = true ∧
    (evictPhase toplevel roi e1 d1 evs).2.2.1 =
      evs ++ [CacheEvent.evictEv e1.tile.zoom_level e1.tile.x e1.tile.y] := by
  unfold evictPhase at hok hch ⊢
  by_cases hc : isCached e1
  · by_cases ho : outsideRoi roi e1.tile.x e1.tile.y
    · simp only [hc, ho, if_pos] at hok hch ⊢
      cases hfe : flushElem toplevel e1 d1 with
      | mk e2 rest =>
        obtain ⟨d2, err2⟩ := rest
        refine ⟨?_, by simp⟩
        have h1 := flushElem_flag_of_changed toplevel e1 d1 hok hch
        rw [hfe] at h1
        exact h1
    · simp only [hc, ho] at hok hch ⊢
      simp at hch
  · simp only [hc] at hok hch ⊢
    simp at hch

theorem evictPhase_evs (toplevel : String) (roi : Rect2i) (e1 : CacheElement) (d1 : Disk)
    (evs : List CacheEvent) :
    (evictPhase toplevel roi e1 d1 evs).2.2.1 =
      if isCached e1 = true ∧ outsideRoi roi e1.tile.x e1.tile.y = true then
        evs ++ [CacheEvent.evictEv e1.tile.zoom_level e1.tile.x e1.tile.y]
      else evs := by
  unfold evictPhase
  by_cases hc : isCached e1
  · by_cases ho : outsideRoi roi e1.tile.x e1.tile.y
    · simp only [hc, ho, and_self, if_true]
    · simp [hc, ho]
  · simp [hc]

theorem evictPhase_meta (toplevel : String) (roi : Rect2i) (e1 : CacheElement) (d1 : Disk)
    (evs : List CacheEvent) :
    (evictPhase toplevel roi e1 d1 evs).1.layer_meta = e1.layer_meta := by
  unfold evictPhase
  by_cases hc : isCached e1
  · by_cases ho : outsideRoi roi e1.tile.x e1.tile.y
    · simp only [hc, ho, if_pos]
      cases hfe : flushElem toplevel e1 d1 with
      | mk e2 rest =>
        obtain ⟨d2, err2⟩ := rest
        have := flushElem_meta toplevel e1 d1
        rw [hfe] at this
        simpa using this
    · simp [hc, ho]
  · simp [hc]

theorem evictPhase_timestamp (toplevel : String) (roi : Rect2i) (e1 : CacheElement) (d1 : Disk)
    (evs : List CacheEvent) :
    (evictPhase toplevel roi e1 d1 evs).1.timestamp = e1.timestamp := by
  unfold evictPhase
  by_cases hc : isCached e1
  · by_cases ho : outsideRoi roi e1.tile.x e1.tile.y
    · simp only [hc, ho, if_pos]
      cases hfe : flushElem toplevel e1 d1 with
      | mk e2 rest =>
        obtain ⟨d2, err2⟩ := rest
        have := flushElem_timestamp toplevel e1 d1
        rw [hfe] at this
        simpa using this
    · simp [hc, ho]
  · simp [hc]

theorem evictPhase_flag_mono (toplevel : String) (roi : Rect2i) (e1 : CacheElement) (d1 : Disk)
    (evs : List CacheEvent) (hw : e1.was_written = true) :
    (evictPhase toplevel roi e1 d1 evs).1.was_written = true := by
  unfold evictPhase
  by_cases hc : isCached e1
  · by_cases ho : outsideRoi roi e1.tile.x e1.tile.y
    · simp only [hc, ho, if_pos]
      rw [flushElem_of_written toplevel e1 d1 hw]
      exact hw
    · simp [hc, ho, hw]
  · simp [hc, hw]

theorem evictPhase_data (toplevel : String) (roi : Rect2i) (e1 : CacheElement) (d1 : Disk)
    (evs : List CacheEvent)
    (hok : (evictPhase toplevel roi e1 d1 evs).2.2.2 = none)
    (hc : isCached e1 = true) (ho : outsideRoi roi e1.tile.x e1.tile.y = true) :
    (evictPhase toplevel roi e1 d1 evs).1.tile.data =
      removeLayers e1.layer_meta e1.tile.data := by
  unfold evictPhase at hok ⊢
  simp only [hc, ho, if_pos] at hok ⊢
  exact flushElem_data_of_ok toplevel e1 d1 hok

/-- Claim C1: in the background worker's per-element flush/evict step, the
persist (write) step happens before the evict step, never the reverse: when
the step completes without error and actually changed the element's raster
payload (i.e. the payload was cleared by eviction), the element's
`was_written` flag is true at that point, and the step's event trace is a
run of write events followed by a run of evict events. -/
theorem claim_c1 (toplevel : String) (roi : Rect2i) (e : CacheElement) (disk : Disk)
    (hok : (processElem toplevel roi e disk).2.2.2 = none)
    (hch : (processElem toplevel roi e disk).1.tile.data ≠ e.tile.data) :
    (processElem toplevel roi e disk).1.was_written = true ∧
    ∃ ws es, (processElem toplevel roi e disk).2.2.1 = ws ++ es ∧
      (∀ v ∈ ws, ∃ z x y, v = CacheEvent.writeEv z x y) ∧
      (∀ v ∈ es, ∃ z x y, v = CacheEvent.evictEv z x y) := by
  unfold processElem at hok hch ⊢
  cases hwp : writePhase toplevel e disk with
  | mk e1 rest =>
    obtain ⟨d1, evs1, err1⟩ := rest
    rw [hwp] at hok hch
    cases err1 with
    | some er => simp at hok
    | none =>
      have ht : e1.tile = e.tile := by
        have := writePhase_tile toplevel e disk
        rw [hwp] at this
        exact this
      have hch1 : (evictPhase toplevel roi e1 d1 evs1).1.tile.data ≠ e1.tile.data := by
        rw [ht]
        exact hch
      have hspec := evictPhase_spec toplevel roi e1 d1 evs1 hok hch1
      refine ⟨hspec.1, evs1,
        [CacheEvent.evictEv e1.tile.zoom_level e1.tile.x e1.tile.y], hspec.2, ?_, ?_⟩
      · have hevs := writePhase_evs toplevel e disk
        rw [hwp] at hevs
        exact hevs
      · intro v hv
        simp only [List.mem_singleton] at hv
        exact ⟨e1.tile.zoom_level, e1.tile.x, e1.tile.y, hv⟩

/-- Concrete input for the claim C1 witness: an unwritten, cached element
whose coordinates lie outside the predicted ROI, so the worker both writes
and evicts it. -/
def c1Elem : CacheElement :=
  { timestamp := 0, layer_meta := [⟨"elevation", 0, 0⟩],
    tile := { zoom_level := 5, x := 3, y := 3,
              data := [("elevation", ⟨⟨7, 0⟩, 0⟩)], locked := false },
    was_written := false }

def c1Roi : Rect2i := ⟨0, 0, 1, 1⟩

/-- Witness for claim C1 at a concrete element that is written and evicted
in one worker step. -/
theorem claim_c1_witness :
    (processElem "d" c1Roi c1Elem []).1.was_written = true ∧
    ∃ ws es, (processElem "d" c1Roi c1Elem []).2.2.1 = ws ++ es ∧
      (∀ v ∈ ws, ∃ z x y, v = CacheEvent.writeEv z x y) ∧
      (∀ v ∈ es, ∃ z x y, v = CacheEvent.evictEv z x y) :=
  claim_c1 "d" c1Roi c1Elem [] rfl (by decide)

/-- Claim C6 (amended): in an error-free worker step on one element, an
evict event is emitted exactly when the element is cached (non-empty raster)
and its coordinates fail the code's ROI test `outsideRoi`; that test treats
the rectangle as closed on its far edges (a tile at
`x = roi.x + roi.width` or `y = roi.y + roi.height` is retained, one past
it is evicted); eviction preserves the element, its layer metadata, its
timestamp and its `was_written` flag, and clears exactly the metadata-listed
layers of the raster payload. -/
theorem claim_c6 (toplevel : String) (roi : Rect2i) (e : CacheElement) (disk : Disk)
    (hok : (processElem toplevel roi e disk).2.2.2 = none) :
    ((CacheEvent.evictEv e.tile.zoom_level e.tile.x e.tile.y ∈
        (processElem toplevel roi e disk).2.2.1) ↔
      (e.tile.data.isEmpty = false ∧ outsideRoi roi e.tile.x e.tile.y = true)) ∧
    (outsideRoi roi e.tile.x e.tile.y = true ↔
      ¬(roi.x ≤ e.tile.x ∧ e.tile.x ≤ roi.x + roi.width ∧
        roi.y ≤ e.tile.y ∧ e.tile.y ≤ roi.y + roi.height)) ∧
    (processElem toplevel roi e disk).1.layer_meta = e.layer_meta ∧
    (processElem toplevel roi e disk).1.timestamp = e.timestamp ∧
    (e.was_written = true → (processElem toplevel roi e disk).1.was_written = true) ∧
    (e.tile.data.isEmpty = false → outsideRoi roi e.tile.x e.tile.y = true →
      (processElem toplevel roi e disk).1.tile.data = removeLayers e.layer_meta e.tile.data) := by
  have houts : outsideRoi roi e.tile.x e.tile.y = true ↔
      ¬(roi.x ≤ e.tile.x ∧ e.tile.x ≤ roi.x + roi.width ∧
        roi.y ≤ e.tile.y ∧ e.tile.y ≤ roi.y + roi.height) := by
    simp only [outsideRoi, Bool.or_eq_true, decide_eq_true_eq]
    omega
  unfold processElem at hok ⊢
  cases hwp : writePhase toplevel e disk with
  | mk e1 rest =>
    obtain ⟨d1, evs1, err1⟩ := rest
    rw [hwp] at hok
    cases err1 with
    | some er => simp at hok
    | none =>
      have ht : e1.tile = e.tile := by
        have := writePhase_tile toplevel e disk
        rw [hwp] at this
        exact this
      have hm : e1.layer_meta = e.layer_meta := by
        have := writePhase_meta toplevel e disk
        rw [hwp] at this
        exact this
      have hts : e1.timestamp = e.timestamp := by
        have := writePhase_timestamp toplevel e disk
        rw [hwp] at this
        exact this
      have hx : e1.tile.x = e.tile.x := by rw [ht]
      have hy : e1.tile.y = e.tile.y := by rw [ht]
      have hz : e1.tile.zoom_level = e.tile.zoom_level := by rw [ht]
      have hdata1 : e1.tile.data = e.tile.data := by rw [ht]
      have hics : isCached e1 = true ↔ e.tile.data.isEmpty = false := by
        unfold isCached
        rw [hdata1]
        cases e.tile.data.isEmpty <;> simp
      have hevs1 : ∀ v ∈ evs1, ∃ z x y, v = CacheEvent.writeEv z x y := by
        have := writePhase_evs toplevel e disk
        rw [hwp] at this
        exact this
      refine ⟨?_, houts, ?_, ?_, ?_, ?_⟩
      · have hevs := evictPhase_evs toplevel roi e1 d1 evs1
        show (CacheEvent.evictEv e.tile.zoom_level e.tile.x e.tile.y ∈
            (evictPhase toplevel roi e1 d1 evs1).2.2.1) ↔ _
        rw [hevs]
        by_cases hcase : isCached e1 = true ∧ outsideRoi roi e1.tile.x e1.tile.y = true
        · rw [if_pos hcase]
          constructor
          · intro _
            exact ⟨hics.mp hcase.1, by rw [← hx, ← hy]; exact hcase.2⟩
          · intro _
            rw [hz, hx, hy]
            simp
        · rw [if_neg hcase]
          constructor
          · intro hmem
            obtain ⟨z', x', y', habs⟩ := hevs1 _ hmem
            exact absurd habs (by simp)
          · intro hrhs
            exact absurd ⟨hics.mpr hrhs.1, by rw [hx, hy]; exact hrhs.2⟩ hcase
      · show (evictPhase toplevel roi e1 d1 evs1).1.layer_meta = _
        rw [evictPhase_meta, hm]
      · show (evictPhase toplevel roi e1 d1 evs1).1.timestamp = _
        rw [evictPhase_timestamp, hts]
      · intro hw
        show (evictPhase toplevel roi e1 d1 evs1).1.was_written = true
        have he1 : e1 = e := by
          have h3 := writePhase_of_written toplevel e disk hw
          rw [hwp] at h3
          simp only [Prod.mk.injEq] at h3
          exact h3.1
        exact evictPhase_flag_mono toplevel roi e1 d1 evs1 (by rw [he1]; exact hw)
      · intro hne ho
        show (evictPhase toplevel roi e1 d1 evs1).1.tile.data = _
        have hc1 : isCached e1 = true := hics.mpr hne
        have ho1 : outsideRoi roi e1.tile.x e1.tile.y = true := by
          rw [hx, hy]
          exact ho
        have := evictPhase_data toplevel roi e1 d1 evs1 hok hc1 ho1
        rw [this, hm, hdata1]

/-- Concrete input for the claim C6 counterexample: a cached, already
written element sitting exactly on the far corner
(x, y) = (roi.x + roi.width, roi.y + roi.height) of the predicted ROI. -/
def c6EdgeElem : CacheElement :=
  { timestamp := 0, layer_meta := [⟨"color", 0, 0⟩],
    tile := { zoom_level := 5, x := 1, y := 1,
              data := [("color", ⟨⟨1, 0⟩, 0⟩)], locked := false },
    was_written := true }

/-- Counterexample to claim C6 as stated: with predicted ROI (0,0,1,1), the
tile at (1,1) lies outside the rectangle under the `cv::Rect2i` half-open
membership convention, yet the worker step does not evict it — its raster
payload is left in place, no evict event is emitted, and no error occurs. -/
theorem claim_c6_counterexample :
    rectContains ⟨0, 0, 1, 1⟩ 1 1 = false ∧
    c6EdgeElem.tile.data ≠ [] ∧
    (processElem "d" ⟨0, 0, 1, 1⟩ c6EdgeElem []).1.tile.data = c6EdgeElem.tile.data ∧
    (processElem "d" ⟨0, 0, 1, 1⟩ c6EdgeElem []).2.2.1 = [] ∧
    (processElem "d" ⟨0, 0, 1, 1⟩ c6EdgeElem []).2.2.2 = none := by
  decide

/-- Concrete input for the claim C6 witness: a cached, written element
strictly beyond the far edge of the predicted ROI, which the worker step
does evict. -/
def c6FarElem : CacheElement :=
  { timestamp := 4, layer_meta := [⟨"color", 0, 0⟩],
    tile := { zoom_level := 5, x := 5, y := 5,
              data := [("color", ⟨⟨2, 0⟩, 0⟩)], locked := false },
    was_written := true }

/-- Witness for claim C6 at a concrete element strictly outside the
predicted ROI. -/
theorem claim_c6_witness :
    ((CacheEvent.evictEv 5 5 5 ∈ (processElem "d" ⟨0, 0, 1, 1⟩ c6FarElem []).2.2.1) ↔
      (c6FarElem.tile.data.isEmpty = false ∧ outsideRoi ⟨0, 0, 1, 1⟩ 5 5 = true)) ∧
    (processElem "d" ⟨0, 0, 1, 1⟩ c6FarElem []).1.layer_meta = c6FarElem.layer_meta ∧
    (c6FarElem.was_written = true →
      (processElem "d" ⟨0, 0, 1, 1⟩ c6FarElem []).1.was_written = true) := by
  have h := claim_c6 "d" ⟨0, 0, 1, 1⟩ c6FarElem [] rfl
  exact ⟨h.1, h.2.2.1, h.2.2.2.2.1⟩

/-- Concrete inputs for claim C2: an empty cache and a single tile to be
added at a zoom level not previously present. -/
def c2State : TileCacheState :=
  { dir_toplevel := "cache", has_init_directories := false, cache := [],
    roi_prev_request := [], roi_prediction := [], do_update := false,
    disk := [], dirs := [] }

def c2Tile : Tile :=
  { zoom_level := 5, x := 0, y := 0, data := [("color", ⟨⟨9, 0⟩, 0⟩)], locked := false }

/-- Claim C2: adding tiles at a zoom level not previously present in the
cache dereferences the `end()` iterator of the zoom map (line 184 of
`tile_cache.cpp`, undefined behaviour) before any tile is inserted, so the
added tile is not retrievable by a subsequent get — contrary to the claim
that every added tile is retrievable immediately after its add returns. -/
theorem claim_c2 :
    (addTiles c2State 5 [c2Tile] ⟨0, 0, 1, 1⟩ 100).2 = some CacheErr.endIterDerefAddNewZoom ∧
    cacheFind (addTiles c2State 5 [c2Tile] ⟨0, 0, 1, 1⟩ 100).1.cache 5 0 0 = none ∧
    (tileCacheGet (addTiles c2State 5 [c2Tile] ⟨0, 0, 1, 1⟩ 100).1 0 0 5).1 = none := by
  decide

/-- Concrete input for claim C3: an unwritten element with two layers, the
first of a known pixel type (CV_8U) and the second of an unknown one
(cv depth 1 = CV_8S). -/
def c3Elem : CacheElement :=
  { timestamp := 0,
    layer_meta := [⟨"a", 0, 0⟩, ⟨"b", 1, 0⟩],
    tile := { zoom_level := 5, x := 0, y := 0,
              data := [("a", ⟨⟨3, 0⟩, 0⟩), ("b", ⟨⟨4, 1⟩, 0⟩)], locked := false },
    was_written := false }

/-- Claim C3: `TileCache::write` sets `was_written = true` inside its
per-layer loop, so when the second layer's pixel type is unrecognized the
write fails after persisting only the first layer yet leaves
`was_written = true` — the element's flag claims all layers durable while
the second layer was never written. -/
theorem claim_c3 :
    (writeElem "d" c3Elem []).2.2 = some CacheErr.unknownTypeWrite ∧
    (writeElem "d" c3Elem []).1.was_written = true ∧
    (writeElem "d" c3Elem []).2.1 = [("d/a/5/0/0.png", ⟨3, 0⟩)] := by
  decide

/-- Claim C4: on the first request for a zoom level, `updatePrediction` sets
the prediction to the current ROI but then assigns through the `end()`
iterator of the previous-request map (line 411, undefined behaviour), so the
previous-request entry is never created — contrary to the claim that
`previous_request_roi[Z]` is set to `roi_current` in both cases. When both
entries exist, the per-field linear extrapolation does hold: previous
(0,0,10,10) and current (5,0,10,10) predict (10,0,10,10). -/
theorem claim_c4 :
    updatePredictionModel [] [] 5 ⟨0, 0, 10, 10⟩ =
      (([], [(5, ⟨0, 0, 10, 10⟩)]), some CacheErr.endIterDerefPrevRequest) ∧
    updatePredictionModel [(5, ⟨0, 0, 10, 10⟩)] [(5, ⟨0, 0, 10, 10⟩)] 5 ⟨5, 0, 10, 10⟩ =
      (([(5, ⟨5, 0, 10, 10⟩)], [(5, ⟨10, 0, 10, 10⟩)]), none) := by
  decide

/-- Concrete inputs for claim C7: a column holding one element whose layer
has an unknown pixel type followed by a perfectly writable element. -/
def c7BadElem : CacheElement :=
  { timestamp := 0, layer_meta := [⟨"color", 1, 0⟩],
    tile := { zoom_level := 5, x := 0, y := 0,
              data := [("color", ⟨⟨1, 1⟩, 0⟩)], locked := false },
    was_written := false }

def c7GoodElem : CacheElement :=
  { timestamp := 0, layer_meta := [⟨"color", 0, 0⟩],
    tile := { zoom_level := 5, x := 0, y := 1,
              data := [("color", ⟨⟨2, 0⟩, 0⟩)], locked := false },
    was_written := false }

/-- Claim C7: `TileCache::process` has no per-element error handling, so a
pixel-type error while persisting the first element of a column aborts the
whole flush cycle — the error propagates out and the second, writable
element is left unvisited and unwritten, contrary to the claim that the
cycle continues with the remaining elements. -/
theorem claim_c7 :
    (processColumn "d" ⟨0, 0, 10, 10⟩ [(0, c7BadElem), (1, c7GoodElem)] []).2.2.2 =
      some CacheErr.unknownTypeWrite ∧
    alookup (processColumn "d" ⟨0, 0, 10, 10⟩ [(0, c7BadElem), (1, c7GoodElem)] []).1 1 =
      some c7GoodElem ∧
    c7GoodElem.was_written = false := by
  decide

/-- Claim C8: a get whose (zoom, x, y) key is absent from the cache — the
zoom level missing, the column missing, or the row missing — returns the
null "not found" result, leaves the state unchanged, and raises no error. -/
theorem claim_c8 (s : TileCacheState) (tx ty zoom_level : Int)
    (h : cacheFind s.cache zoom_level tx ty = none) :
    tileCacheGet s tx ty zoom_level = (none, s, none) := by
  unfold tileCacheGet
  rw [h]

/-- Concrete empty cache for the claim C8 witness. -/
def c8State : TileCacheState :=
  { dir_toplevel := "cache", has_init_directories := false, cache := [],
    roi_prev_request := [], roi_prediction := [], do_update := false,
    disk := [], dirs := [] }

/-- Witness for claim C8: get(99, 99, 7) on an empty cache returns "not
found" with no error. -/
theorem claim_c8_witness : tileCacheGet c8State 99 99 7 = (none, c8State, none) :=
  claim_c8 c8State 99 99 7 rfl

theorem tileCacheGet_found_cached (s : TileCacheState) (tx ty zoom_level : Int)
    (e : CacheElement) (hfind : cacheFind s.cache zoom_level tx ty = some e)
    (hc : isCached { e with tile := { e.tile with locked := true } } = true) :
    tileCacheGet s tx ty zoom_level =
      (some { e.tile with locked := true },
       { s with cache := cacheReplace s.cache zoom_level tx ty { e with tile := { e.tile with locked := true } } },
       none) := by
  unfold tileCacheGet
  rw [hfind]
  simp only [hc, if_true]

theorem tileCacheGet_found_uncached (s : TileCacheState) (tx ty zoom_level : Int)
    (e : CacheElement) (hfind : cacheFind s.cache zoom_level tx ty = some e)
    (hc : isCached { e with tile := { e.tile with locked := true } } = false) :
    tileCacheGet s tx ty zoom_level =
      (match loadElem s.dir_toplevel s.disk { e with tile := { e.tile with locked := true } } with
       | (e2, none) =>
         (some e2.tile, { s with cache := cacheReplace s.cache zoom_level tx ty e2 }, none)
       | (e2, some err) =>
         (none, { s with cache := cacheReplace s.cache zoom_level tx ty e2 }, some err)) := by
  unfold tileCacheGet
  rw [hfind]
  simp only [hc, if_false, Bool.false_eq_true]

/-- Claim C5: for a get whose key is present (with at least one metadata
layer): when it completes without error it returns a non-empty tile in the
locked state; and it fails with a load error exactly when the raster
container was empty at call time (evicted or never loaded) and some layer
either has an unrecognized pixel type or its expected backing file is
absent from disk. -/
theorem claim_c5 (s : TileCacheState) (tx ty zoom_level : Int) (e : CacheElement)
    (hfind : cacheFind s.cache zoom_level tx ty = some e)
    (hmeta : e.layer_meta ≠ []) :
    ((tileCacheGet s tx ty zoom_level).2.2 = none →
      ∃ t, (tileCacheGet s tx ty zoom_level).1 = some t ∧ t.locked = true ∧ t.data ≠ []) ∧
    ((tileCacheGet s tx ty zoom_level).2.2 ≠ none ↔
      (e.tile.data.isEmpty = true ∧
       ∃ m ∈ e.layer_meta,
         layerLoadable s.dir_toplevel s.disk e.tile.zoom_level e.tile.x e.tile.y m = false)) := by
  by_cases hc : isCached { e with tile := { e.tile with locked := true } }
  · rw [tileCacheGet_found_cached s tx ty zoom_level e hfind hc]
    have hne : e.tile.data ≠ [] := by
      unfold isCached at hc
      intro habs
      rw [show ({ e with tile := { e.tile with locked := true } } : CacheElement).tile.data
          = e.tile.data from rfl, habs] at hc
      simp at hc
    refine ⟨fun _ => ⟨{ e.tile with locked := true }, rfl, rfl, hne⟩, ?_, ?_⟩
    · intro habs
      exact absurd rfl habs
    · rintro ⟨hemp, -⟩
      exfalso
      exact hne (List.isEmpty_iff.mp hemp)
  · have hcf : isCached { e with tile := { e.tile with locked := true } } = false := by
      cases hb : isCached { e with tile := { e.tile with locked := true } }
      · rfl
      · exact absurd hb hc
    have hemp : e.tile.data.isEmpty = true := by
      unfold isCached at hcf
      rw [show ({ e with tile := { e.tile with locked := true } } : CacheElement).tile.data
          = e.tile.data from rfl] at hcf
      simpa using hcf
    rw [tileCacheGet_found_uncached s tx ty zoom_level e hfind hcf]
    cases hload : loadElem s.dir_toplevel s.disk { e with tile := { e.tile with locked := true } } with
    | mk e2 err =>
      have herr : err = (loadLayers s.dir_toplevel s.disk e.tile.zoom_level e.tile.x e.tile.y
          e.layer_meta e.tile.data).2 := by
        have h0 := loadElem_err s.dir_toplevel s.disk { e with tile := { e.tile with locked := true } }
        rw [hload] at h0
        exact h0
      cases err with
      | none =>
        refine ⟨fun _ => ⟨e2.tile, rfl, ?_, ?_⟩, ?_, ?_⟩
        · have h0 := loadElem_locked s.dir_toplevel s.disk { e with tile := { e.tile with locked := true } }
          rw [hload] at h0
          exact h0
        · have h0 := loadElem_data s.dir_toplevel s.disk { e with tile := { e.tile with locked := true } }
          rw [hload] at h0
          rw [h0]
          exact loadLayers_ne_nil s.dir_toplevel s.disk e.tile.zoom_level e.tile.x e.tile.y
            e.layer_meta e.tile.data herr.symm (Or.inr hmeta)
        · intro habs
          exact absurd rfl habs
        · rintro ⟨-, m, hm, hbad⟩
          exfalso
          have hall := (loadLayers_none_iff s.dir_toplevel s.disk e.tile.zoom_level e.tile.x
            e.tile.y e.layer_meta e.tile.data).mp herr.symm
          have := hall m hm
          rw [hbad] at this
          exact absurd this (by simp)
      | some err2 =>
        refine ⟨fun habs => absurd habs (by simp), fun _ => ⟨hemp, ?_⟩, fun _ => by simp⟩
        by_contra hno
        push_neg at hno
        have hall : ∀ m ∈ e.layer_meta,
            layerLoadable s.dir_toplevel s.disk e.tile.zoom_level e.tile.x e.tile.y m = true := by
          intro m hm
          cases hll : layerLoadable s.dir_toplevel s.disk e.tile.zoom_level e.tile.x e.tile.y m
          · exact absurd hll (hno m hm)
          · rfl
        have := (loadLayers_none_iff s.dir_toplevel s.disk e.tile.zoom_level e.tile.x
          e.tile.y e.layer_meta e.tile.data).mpr hall
        rw [← herr] at this
        exact absurd this (by simp)

/-- Concrete state for the claim C5 witness: one cached element with a
single layer, present at key (zoom 5, x 0, y 0). -/
def c5Elem : CacheElement :=
  { timestamp := 2, layer_meta := [⟨"color", 0, 0⟩],
    tile := { zoom_level := 5, x := 0, y := 0,
              data := [("color", ⟨⟨8, 0⟩, 0⟩)], locked := false },
    was_written := true }

def c5State : TileCacheState :=
  { dir_toplevel := "cache", has_init_directories := true,
    cache := [(5, [(0, [(0, c5Elem)])])],
    roi_prev_request := [], roi_prediction := [], do_update := false,
    disk := [], dirs := [] }

/-- Witness for claim C5 at a concrete cached element. -/
theorem claim_c5_witness :
    ((tileCacheGet c5State 0 0 5).2.2 = none →
      ∃ t, (tileCacheGet c5State 0 0 5).1 = some t ∧ t.locked = true ∧ t.data ≠ []) ∧
    ((tileCacheGet c5State 0 0 5).2.2 ≠ none ↔
      (c5Elem.tile.data.isEmpty = true ∧
       ∃ m ∈ c5Elem.layer_meta,
         layerLoadable c5State.dir_toplevel c5State.disk c5Elem.tile.zoom_level
           c5Elem.tile.x c5Elem.tile.y m = false)) :=
  claim_c5 c5State 0 0 5 c5Elem rfl (by decide)

theorem cacheFind_cacheReplace_self (c : Cache) (z x y : Int) (e enew : CacheElement)
    (h : cacheFind c z x y = some e) :
    cacheFind (cacheReplace c z x y enew) z x y = some enew := by
  cases h1 : alookup c z with
  | none =>
    unfold cacheFind at h
    rw [h1] at h
    exact Option.noConfusion h
  | some grid =>
    cases h2 : alookup grid x with
    | none =>
      have h' : (match alookup grid x with
          | none => none
          | some col => alookup col y) = some e := by
        unfold cacheFind at h
        rw [h1] at h
        exact h
      rw [h2] at h'
      exact Option.noConfusion h'
    | some col =>
      simp only [cacheReplace, h1, h2, cacheFind, alookup_ainsert_self]

theorem cacheFind_cacheReplace_ne (c : Cache) (z x y : Int) (enew : CacheElement)
    (z' x' y' : Int) (hne : ¬(z' = z ∧ x' = x ∧ y' = y)) :
    cacheFind (cacheReplace c z x y enew) z' x' y' = cacheFind c z' x' y' := by
  cases h1 : alookup c z with
  | none => simp only [cacheReplace, h1]
  | some grid =>
    cases h2 : alookup grid x with
    | none => simp only [cacheReplace, h1, h2]
    | some col =>
      simp only [cacheReplace, h1, h2]
      by_cases hz : z' = z
      · subst hz
        simp only [cacheFind, alookup_ainsert_self, h1]
        by_cases hx : x' = x
        · subst hx
          have hy : y' ≠ y := by tauto
          simp only [alookup_ainsert_self, h2, alookup_ainsert_ne _ _ _ _ hy]
        · simp only [alookup_ainsert_ne _ _ _ _ hx]
      · simp only [cacheFind, alookup_ainsert_ne _ _ _ _ hz]

theorem cacheReplace_frame (s : TileCacheState) (zoom_level tx ty : Int)
    (e enew : CacheElement)
    (hfind : cacheFind s.cache zoom_level tx ty = some e)
    (hfields : enew.was_written = e.was_written ∧ enew.layer_meta = e.layer_meta ∧
      enew.timestamp = e.timestamp ∧ enew.tile.zoom_level = e.tile.zoom_level ∧
      enew.tile.x = e.tile.x ∧ enew.tile.y = e.tile.y) :
    (∀ z x y, (cacheFind (cacheReplace s.cache zoom_level tx ty enew) z x y).isSome =
      (cacheFind s.cache z x y).isSome) ∧
    (∀ z x y, ¬(z = zoom_level ∧ x = tx ∧ y = ty) →
      cacheFind (cacheReplace s.cache zoom_level tx ty enew) z x y = cacheFind s.cache z x y) ∧
    (∀ e', cacheFind (cacheReplace s.cache zoom_level tx ty enew) zoom_level tx ty = some e' →
      ∃ e0, cacheFind s.cache zoom_level tx ty = some e0 ∧
        e'.was_written = e0.was_written ∧ e'.layer_meta = e0.layer_meta ∧
        e'.timestamp = e0.timestamp ∧ e'.tile.zoom_level = e0.tile.zoom_level ∧
        e'.tile.x = e0.tile.x ∧ e'.tile.y = e0.tile.y) := by
  refine ⟨?_, ?_, ?_⟩
  · intro z x y
    by_cases hk : z = zoom_level ∧ x = tx ∧ y = ty
    · obtain ⟨hz, hx, hy⟩ := hk
      subst hz
      subst hx
      subst hy
      rw [cacheFind_cacheReplace_self s.cache z x y e enew hfind, hfind]
      rfl
    · rw [cacheFind_cacheReplace_ne s.cache zoom_level tx ty enew z x y hk]
  · intro z x y hk
    exact cacheFind_cacheReplace_ne s.cache zoom_level tx ty enew z x y hk
  · intro e' h'
    rw [cacheFind_cacheReplace_self s.cache zoom_level tx ty e enew hfind] at h'
    have he' : e' = enew := by
      injection h' with h''
      exact h''.symm
    subst he'
    exact ⟨e, hfind, hfields.1, hfields.2.1, hfields.2.2.1, hfields.2.2.2.1,
      hfields.2.2.2.2.1, hfields.2.2.2.2.2⟩

/-- Claim C10: frame property of get — a get call never changes the ROI
prediction state, the previous-request state, the disk, the set of cached
keys, or any element at a key other than the addressed one; the addressed
element keeps its `was_written` flag, layer metadata, timestamp and tile
coordinates, so the only cached data get may modify is the addressed tile's
raster container (and its transferred lock flag). -/
theorem claim_c10 (s : TileCacheState) (tx ty zoom_level : Int) :
    (tileCacheGet s tx ty zoom_level).2.1.roi_prediction = s.roi_prediction ∧
    (tileCacheGet s tx ty zoom_level).2.1.roi_prev_request = s.roi_prev_request ∧
    (tileCacheGet s tx ty zoom_level).2.1.disk = s.disk ∧
    (∀ z x y, (cacheFind (tileCacheGet s tx ty zoom_level).2.1.cache z x y).isSome =
      (cacheFind s.cache z x y).isSome) ∧
    (∀ z x y, ¬(z = zoom_level ∧ x = tx ∧ y = ty) →
      cacheFind (tileCacheGet s tx ty zoom_level).2.1.cache z x y = cacheFind s.cache z x y) ∧
    (∀ e', cacheFind (tileCacheGet s tx ty zoom_level).2.1.cache zoom_level tx ty = some e' →
      ∃ e0, cacheFind s.cache zoom_level tx ty = some e0 ∧
        e'.was_written = e0.was_written ∧ e'.layer_meta = e0.layer_meta ∧
        e'.timestamp = e0.timestamp ∧ e'.tile.zoom_level = e0.tile.zoom_level ∧
        e'.tile.x = e0.tile.x ∧ e'.tile.y = e0.tile.y) := by
  cases hfind : cacheFind s.cache zoom_level tx ty with
  | none =>
    have hmiss : tileCacheGet s tx ty zoom_level = (none, s, none) := by
      unfold tileCacheGet
      rw [hfind]
    rw [hmiss]
    exact ⟨rfl, rfl, rfl, fun z x y => rfl, fun z x y _ => rfl,
      fun e' h' => absurd (hfind.symm.trans h') (by simp)⟩
  | some e =>
    by_cases hc : isCached { e with tile := { e.tile with locked := true } }
    · rw [tileCacheGet_found_cached s tx ty zoom_level e hfind hc]
      have hframe := cacheReplace_frame s zoom_level tx ty e
        { e with tile := { e.tile with locked := true } } hfind
        ⟨rfl, rfl, rfl, rfl, rfl, rfl⟩
      refine ⟨rfl, rfl, rfl, hframe.1, hframe.2.1, fun e' h' => ?_⟩
      obtain ⟨e0, he0, hr⟩ := hframe.2.2 e' h'
      refine ⟨e0, ?_, hr⟩
      rw [← hfind]
      exact he0
    · have hcf : isCached { e with tile := { e.tile with locked := true } } = false := by
        cases hb : isCached { e with tile := { e.tile with locked := true } }
        · rfl
        · exact absurd hb hc
      rw [tileCacheGet_found_uncached s tx ty zoom_level e hfind hcf]
      cases hload : loadElem s.dir_toplevel s.disk { e with tile := { e.tile with locked := true } } with
      | mk e2 err =>
        have hf1 : e2.was_written = e.was_written := by
          have h0 := loadElem_was_written s.dir_toplevel s.disk
            { e with tile := { e.tile with locked := true } }
          rw [hload] at h0
          exact h0
        have hf2 : e2.layer_meta = e.layer_meta := by
          have h0 := loadElem_meta s.dir_toplevel s.disk
            { e with tile := { e.tile with locked := true } }
          rw [hload] at h0
          exact h0
        have hf3 : e2.timestamp = e.timestamp := by
          have h0 := loadElem_timestamp s.dir_toplevel s.disk
            { e with tile := { e.tile with locked := true } }
          rw [hload] at h0
          exact h0
        have hf4 := loadElem_coords s.dir_toplevel s.disk
          { e with tile := { e.tile with locked := true } }
        rw [hload] at hf4
        have hframe := cacheReplace_frame s zoom_level tx ty e e2 hfind
          ⟨hf1, hf2, hf3, hf4.1, hf4.2.1, hf4.2.2⟩
        cases err with
        | none =>
          refine ⟨rfl, rfl, rfl, hframe.1, hframe.2.1, fun e' h' => ?_⟩
          obtain ⟨e0, he0, hr⟩ := hframe.2.2 e' h'
          refine ⟨e0, ?_, hr⟩
          rw [← hfind]
          exact he0
        | some err2 =>
          refine ⟨rfl, rfl, rfl, hframe.1, hframe.2.1, fun e' h' => ?_⟩
          obtain ⟨e0, he0, hr⟩ := hframe.2.2 e' h'
          refine ⟨e0, ?_, hr⟩
          rw [← hfind]
          exact he0

/-- Concrete state for the claim C10 witness: two cached elements at
(zoom 5, 0, 0) and (zoom 5, 0, 1). -/
def c10ElemA : CacheElement :=
  { timestamp := 1, layer_meta := [⟨"color", 0, 0⟩],
    tile := { zoom_level := 5, x := 0, y := 0,
              data := [("color", ⟨⟨5, 0⟩, 0⟩)], locked := false },
    was_written := true }

def c10ElemB : CacheElement :=
  { timestamp := 1, layer_meta := [⟨"color", 0, 0⟩],
    tile := { zoom_level := 5, x := 0, y := 1,
              data := [("color", ⟨⟨6, 0⟩, 0⟩)], locked := false },
    was_written := false }

def c10State : TileCacheState :=
  { dir_toplevel := "cache", has_init_directories := true,
    cache := [(5, [(0, [(0, c10ElemA), (1, c10ElemB)])])],
    roi_prev_request := [(5, ⟨0, 0, 1, 1⟩)], roi_prediction := [(5, ⟨0, 0, 1, 1⟩)],
    do_update := false, disk := [], dirs := [] }

/-- Witness for claim C10: getting (0, 0, zoom 5) leaves the ROI state, the
disk, and the non-addressed element (zoom 5, 0, 1) unchanged. -/
theorem claim_c10_witness :
    (tileCacheGet c10State 0 0 5).2.1.roi_prediction = c10State.roi_prediction ∧
    (tileCacheGet c10State 0 0 5).2.1.roi_prev_request = c10State.roi_prev_request ∧
    (tileCacheGet c10State 0 0 5).2.1.disk = c10State.disk ∧
    cacheFind (tileCacheGet c10State 0 0 5).2.1.cache 5 0 1 = cacheFind c10State.cache 5 0 1 ∧
    (cacheFind (tileCacheGet c10State 0 0 5).2.1.cache 5 0 0).isSome =
      (cacheFind c10State.cache 5 0 0).isSome := by
  have h := claim_c10 c10State 0 0 5
  exact ⟨h.1, h.2.1, h.2.2.1, h.2.2.2.2.1 5 0 1 (by decide), h.2.2.2.1 5 0 0⟩

/-! ### Lemmas about add's frame -/

/-- Lookup inside one zoom level's grid: the inner two `find` calls. -/
def gridFind (grid : CacheElementGrid) (tx ty : Int) : Option CacheElement :=
  match alookup grid tx with
  | none => none
  | some col => alookup col ty

theorem cacheFind_of_zoom (c : Cache) (z x y : Int) (grid : CacheElementGrid)
    (h : alookup c z = some grid) : cacheFind c z x y = gridFind grid x y := by
  unfold cacheFind gridFind
  rw [h]

theorem cacheFind_zoom_ainsert_ne (c : Cache) (zoom_level : Int) (g : CacheElementGrid)
    (z x y : Int) (h : z ≠ zoom_level) :
    cacheFind (ainsert c zoom_level g) z x y = cacheFind c z x y := by
  unfold cacheFind
  rw [alookup_ainsert_ne _ _ _ _ h]

theorem alookup_single_ne {κ α : Type} [DecidableEq κ] (k k' : κ) (v : α) (h : ¬(k' = k)) :
    alookup [(k, v)] k' = none := by
  simp [alookup, h]

theorem addExisting_cons_none (toplevel : String) (layer_names : List String)
    (layer_meta : List LayerMetaData) (zoom_level timestamp : Int) (t : Tile)
    (rest : List Tile) (grid : CacheElementGrid) (dirs : List String)
    (hg : alookup grid t.x = none) :
    addExisting toplevel layer_names layer_meta zoom_level timestamp (t :: rest) grid dirs =
      addExisting toplevel layer_names layer_meta zoom_level timestamp rest
        (ainsert grid t.x [(t.y, { timestamp := timestamp, layer_meta := layer_meta, tile := { t with locked := false }, was_written := false })])
        (createDirectories (toplevel ++ "/") layer_names ("/" ++ toString zoom_level ++ "/" ++ toString t.x) dirs) := by
  conv_lhs => unfold addExisting
  rw [hg]

theorem addExisting_cons_some (toplevel : String) (layer_names : List String)
    (layer_meta : List LayerMetaData) (zoom_level timestamp : Int) (t : Tile)
    (rest : List Tile) (grid : CacheElementGrid) (col : CacheColumn) (dirs : List String)
    (hg : alookup grid t.x = some col) :
    addExisting toplevel layer_names layer_meta zoom_level timestamp (t :: rest) grid dirs =
      addExisting toplevel layer_names layer_meta zoom_level timestamp rest
        (ainsert grid t.x (ainsert col t.y { timestamp := timestamp, layer_meta := layer_meta, tile := { t with locked := false }, was_written := false }))
        dirs := by
  conv_lhs => unfold addExisting
  rw [hg]

theorem addExisting_frame (toplevel : String) (layer_names : List String)
    (layer_meta : List LayerMetaData) (zoom_level timestamp : Int)
    (tiles : List Tile) (grid : CacheElementGrid) (dirs : List String) (x y : Int)
    (h : ∀ t ∈ tiles, ¬(t.x = x ∧ t.y = y)) :
    gridFind (addExisting toplevel layer_names layer_meta zoom_level timestamp tiles grid dirs).1 x y
      = gridFind grid x y := by
  induction tiles generalizing grid dirs with
  | nil => rfl
  | cons t rest ih =>
    have ht := h t (List.mem_cons_self t rest)
    have hrest : ∀ t' ∈ rest, ¬(t'.x = x ∧ t'.y = y) :=
      fun t' h' => h t' (List.mem_cons_of_mem t h')
    cases hg : alookup grid t.x with
    | none =>
      rw [addExisting_cons_none toplevel layer_names layer_meta zoom_level timestamp
        t rest grid dirs hg]
      rw [ih _ _ hrest]
      by_cases hx : x = t.x
      · subst hx
        unfold gridFind
        rw [alookup_ainsert_self, hg]
        have hy : ¬(y = t.y) := fun h' => ht ⟨rfl, h'.symm⟩
        exact alookup_single_ne t.y y _ hy
      · unfold gridFind
        rw [alookup_ainsert_ne _ _ _ _ hx]
    | some col =>
      rw [addExisting_cons_some toplevel layer_names layer_meta zoom_level timestamp
        t rest grid col dirs hg]
      rw [ih _ _ hrest]
      by_cases hx : x = t.x
      · subst hx
        unfold gridFind
        rw [alookup_ainsert_self, hg]
        have hy : ¬(y = t.y) := fun h' => ht ⟨rfl, h'.symm⟩
        exact alookup_ainsert_ne col t.y y _ hy
      · unfold gridFind
        rw [alookup_ainsert_ne _ _ _ _ hx]

theorem updatePrediction_frame (p q : List (Int × Rect2i)) (zoom_level : Int)
    (roi_current : Rect2i) (z : Int) (h : z ≠ zoom_level) :
    alookup (updatePredictionModel p q zoom_level roi_current).1.1 z = alookup p z ∧
    alookup (updatePredictionModel p q zoom_level roi_current).1.2 z = alookup q z := by
  unfold updatePredictionModel
  cases h1 : alookup p zoom_level with
  | none => exact ⟨rfl, alookup_ainsert_ne _ _ _ _ h⟩
  | some prev =>
    cases h2 : alookup q zoom_level with
    | none => exact ⟨rfl, rfl⟩
    | some pr =>
      exact ⟨alookup_ainsert_ne _ _ _ _ h, alookup_ainsert_ne _ _ _ _ h⟩

theorem addTilesExisting_frame (s1 : TileCacheState) (zoom_level : Int)
    (layer_names : List String) (layer_meta : List LayerMetaData) (tiles : List Tile)
    (grid : CacheElementGrid) (roi_idx : Rect2i) (timestamp : Int)
    (hz : alookup s1.cache zoom_level = some grid) :
    (∀ z x y, ¬(z = zoom_level ∧ ∃ t ∈ tiles, t.x = x ∧ t.y = y) →
      cacheFind (addTilesExisting s1 zoom_level layer_names layer_meta tiles grid
        roi_idx timestamp).1.cache z x y = cacheFind s1.cache z x y) ∧
    (∀ z, z ≠ zoom_level →
      alookup (addTilesExisting s1 zoom_level layer_names layer_meta tiles grid
        roi_idx timestamp).1.roi_prediction z = alookup s1.roi_prediction z ∧
      alookup (addTilesExisting s1 zoom_level layer_names layer_meta tiles grid
        roi_idx timestamp).1.roi_prev_request z = alookup s1.roi_prev_request z) := by
  unfold addTilesExisting
  cases hae : addExisting s1.dir_toplevel layer_names layer_meta zoom_level timestamp
      tiles grid s1.dirs with
  | mk grid2 dirs2 =>
    cases hup : updatePredictionModel s1.roi_prev_request s1.roi_prediction
        zoom_level roi_idx with
    | mk pr err =>
      obtain ⟨prevR, predR⟩ := pr
      have hcache : ∀ z x y, ¬(z = zoom_level ∧ ∃ t ∈ tiles, t.x = x ∧ t.y = y) →
          cacheFind (ainsert s1.cache zoom_level grid2) z x y = cacheFind s1.cache z x y := by
        intro z x y hne
        by_cases hzz : z = zoom_level
        · subst hzz
          have hxy : ∀ t ∈ tiles, ¬(t.x = x ∧ t.y = y) := by
            intro t htmem hc
            exact hne ⟨rfl, t, htmem, hc⟩
          rw [cacheFind_of_zoom (ainsert s1.cache z grid2) z x y grid2
            (alookup_ainsert_self _ _ _)]
          have h2 := addExisting_frame s1.dir_toplevel layer_names layer_meta z timestamp
            tiles grid s1.dirs x y hxy
          rw [hae] at h2
          exact h2.trans (cacheFind_of_zoom s1.cache z x y grid hz).symm
        · exact cacheFind_zoom_ainsert_ne s1.cache zoom_level grid2 z x y hzz
      have hroi : ∀ z, z ≠ zoom_level →
          alookup predR z = alookup s1.roi_prediction z ∧
          alookup prevR z = alookup s1.roi_prev_request z := by
        intro z hzz
        have h3 := updatePrediction_frame s1.roi_prev_request s1.roi_prediction
          zoom_level roi_idx z hzz
        rw [hup] at h3
        exact ⟨h3.2, h3.1⟩
      cases err with
      | some er => exact ⟨hcache, hroi⟩
      | none => exact ⟨hcache, hroi⟩

/-- Claim C9: frame property of add — a completed add call for zoom level Z
changes no cache slot other than those at (Z, t.x, t.y) for the tiles t of
the batch, and leaves the predicted-ROI and previous-request entries of
every zoom level other than Z unchanged. -/
theorem claim_c9 (s : TileCacheState) (zoom_level : Int) (tiles : List Tile)
    (roi_idx : Rect2i) (timestamp : Int)
    (hok : (addTiles s zoom_level tiles roi_idx timestamp).2 = none) :
    (∀ z x y, ¬(z = zoom_level ∧ ∃ t ∈ tiles, t.x = x ∧ t.y = y) →
      cacheFind (addTiles s zoom_level tiles roi_idx timestamp).1.cache z x y =
        cacheFind s.cache z x y) ∧
    (∀ z, z ≠ zoom_level →
      alookup (addTiles s zoom_level tiles roi_idx timestamp).1.roi_prediction z =
        alookup s.roi_prediction z ∧
      alookup (addTiles s zoom_level tiles roi_idx timestamp).1.roi_prev_request z =
        alookup s.roi_prev_request z) := by
  cases tiles with
  | nil => simp [addTiles] at hok
  | cons t0 rest =>
    cases hz : alookup s.cache zoom_level with
    | none =>
      have herr : (addTiles s zoom_level (t0 :: rest) roi_idx timestamp).2 =
          some CacheErr.endIterDerefAddNewZoom := by
        unfold addTiles
        simp only [hz]
      rw [herr] at hok
      exact Option.noConfusion hok
    | some grid =>
      have heq : addTiles s zoom_level (t0 :: rest) roi_idx timestamp =
          addTilesExisting { s with dirs := (if !s.has_init_directories then createDirectories (s.dir_toplevel ++ "/") (t0.data.map fun p => p.1) "" s.dirs else s.dirs), has_init_directories := true } zoom_level (t0.data.map fun p => p.1) (t0.data.map fun p => { name := p.1, mtype := p.2.data.mtype, interpolation_flag := p.2.interpolation }) (t0 :: rest) grid roi_idx timestamp := by
        unfold addTiles
        simp only [hz]
      rw [heq]
      have hframe := addTilesExisting_frame
        { s with dirs := (if !s.has_init_directories then createDirectories (s.dir_toplevel ++ "/") (t0.data.map fun p => p.1) "" s.dirs else s.dirs), has_init_directories := true }
        zoom_level (t0.data.map fun p => p.1)
        (t0.data.map fun p => { name := p.1, mtype := p.2.data.mtype, interpolation_flag := p.2.interpolation })
        (t0 :: rest) grid roi_idx timestamp hz
      exact ⟨hframe.1, hframe.2⟩

/-- Concrete inputs for the claim C9 witness. -/
def c9ElemA : CacheElement :=
  { timestamp := 1, layer_meta := [⟨"color", 0, 0⟩],
    tile := { zoom_level := 5, x := 0, y := 0,
              data := [("color", ⟨⟨5, 0⟩, 0⟩)], locked := false },
    was_written := true }

def c9TileB : Tile :=
  { zoom_level := 5, x := 1, y := 1, data := [("color", ⟨⟨6, 0⟩, 0⟩)], locked := false }

def c9State : TileCacheState :=
  { dir_toplevel := "cache", has_init_directories := true,
    cache := [(5, [(0, [(0, c9ElemA)])])],
    roi_prev_request := [(5, ⟨0, 0, 1, 1⟩)], roi_prediction := [(5, ⟨0, 0, 1, 1⟩)],
    do_update := false, disk := [], dirs := [] }

/-- Witness for claim C9: adding the tile (1,1) at zoom 5 leaves the
element at (5, 0, 0) and the ROI state of zoom 6 unchanged. -/
theorem claim_c9_witness :
    cacheFind (addTiles c9State 5 [c9TileB] ⟨1, 0, 1, 1⟩ 7).1.cache 5 0 0 =
      cacheFind c9State.cache 5 0 0 ∧
    alookup (addTiles c9State 5 [c9TileB] ⟨1, 0, 1, 1⟩ 7).1.roi_prediction 6 =
      alookup c9State.roi_prediction 6 ∧
    alookup (addTiles c9State 5 [c9TileB] ⟨1, 0, 1, 1⟩ 7).1.roi_prev_request 6 =
      alookup c9State.roi_prev_request 6 := by
  have h := claim_c9 c9State 5 [c9TileB] ⟨1, 0, 1, 1⟩ 7 (by decide)
  exact ⟨h.1 5 0 0 (by decide), (h.2 6 (by decide)).1, (h.2 6 (by decide)).2⟩
